import Mathlib

/-!
Shallow embedding of the `diesel_cockroach` crate: the `UPSERT` statement
node (`src/upsert.rs`) and the `AS OF SYSTEM TIME` clause node
(`src/as_of_system_time.rs`), together with the diesel `AstPass` sink they
write into.  Fragments are modelled as free compositions of the `AstPass`
primitives actually used by the code (`push_sql`, `push_bind_param`,
`unsafe_to_cache_prepared`), interpreted by `run`; child fragments that
come from diesel (table from-clauses, insertable record sets, the
macro-generated time-value functions) are modelled from the behaviour
pinned down by the repository's own tests.
-/

namespace DieselCockroach

/-- Concrete SQL value bound as a positional parameter.  The constructors
cover the value types appearing in the repository's tests: byte vectors,
strings, 64-bit integers, booleans, `PgTimestamp` and `PgInterval`. -/
inductive BindValue
  | bytes (bs : List Nat)
  | str (s : String)
  | int (n : Int)
  | bool (b : Bool)
  | timestamp (microseconds : Int)
  | interval (microseconds days months : Int)
  deriving Repr, DecidableEq

/-- One chunk of emitted SQL text: either literal text written by
`push_sql`, or the `$n` positional placeholder written by
`push_bind_param` (Pg numbers placeholders from 1 in emission order). -/
inductive SqlChunk
  | lit (s : String)
  | placeholder (n : Nat)
  deriving Repr, DecidableEq

/-- Rendering of a chunk to the dialect's concrete text. -/
def SqlChunk.render : SqlChunk → String
  | SqlChunk.lit s => s
  | SqlChunk.placeholder n => "$" ++ toString n

/-- The `AstPass<Pg>` sink: accumulated SQL chunks, the bind-parameter
stream in emission order, and the prepared-statement cacheability flag
(defaults to cacheable; `unsafe_to_cache_prepared` clears it). -/
structure AstPass where
  sql : List SqlChunk
  binds : List BindValue
  cacheable : Bool
  deriving Repr, DecidableEq

/-- A fresh sink, as at the start of a walk. -/
def AstPass.empty : AstPass := ⟨[], [], true⟩

/-- The `push_sql` primitive: append literal SQL text. -/
def AstPass.pushSql (p : AstPass) (s : String) : AstPass :=
  { p with sql := p.sql ++ [SqlChunk.lit s] }

/-- The `push_bind_param` primitive: append the next positional
placeholder (`$k` with `k` = number of binds so far + 1, the Pg
convention) and record the bound value. -/
def AstPass.pushBindParam (p : AstPass) (v : BindValue) : AstPass :=
  { p with
      sql := p.sql ++ [SqlChunk.placeholder (p.binds.length + 1)]
      binds := p.binds ++ [v] }

/-- The `unsafe_to_cache_prepared` primitive: clear the cacheability
flag for this walk. -/
def AstPass.markUncacheable (p : AstPass) : AstPass :=
  { p with cacheable := false }

/-- The emitted SQL text of a sink: its chunks rendered and joined. -/
def AstPass.sqlText (p : AstPass) : String :=
  String.join (p.sql.map SqlChunk.render)

/-- The positional placeholders occurring in a chunk list, in textual
order. -/
def placeholders (cs : List SqlChunk) : List Nat :=
  cs.filterMap fun c =>
    match c with
    | SqlChunk.placeholder n => some n
    | SqlChunk.lit _ => none

/-- The bind-stream invariant of the spec: the placeholders in the
emitted text are exactly `$1 .. $n` in order, where `n` is the length of
the bound-value sequence, so the i-th placeholder refers to the i-th
bound value. -/
def bindAligned (p : AstPass) : Prop :=
  placeholders p.sql = List.range' 1 p.binds.length

instance (p : AstPass) : Decidable (bindAligned p) := by
  unfold bindAligned; infer_instance

/-- A fragment's `walk_ast` body, as a free composition of the `AstPass`
primitives the crate's code uses.  `err` models a child fragment whose
`walk_ast` returns an error (e.g. a dialect-incompatible sub-expression);
the crate's own nodes never construct one. -/
inductive Walk
  | pushSql (s : String)
  | pushBind (v : BindValue)
  | markUncacheable
  | skip
  | err (e : String)
  | seq (a b : Walk)
  deriving Repr, DecidableEq

/-- Interpreting a walk against a sink: each primitive acts on the
`AstPass`, `seq` runs left then right, and an error from either side
aborts the walk with that error (the `?` operator in the Rust code). -/
def run : Walk → AstPass → Except String AstPass
  | Walk.pushSql s, p => Except.ok (p.pushSql s)
  | Walk.pushBind v, p => Except.ok (p.pushBindParam v)
  | Walk.markUncacheable, p => Except.ok p.markUncacheable
  | Walk.skip, p => Except.ok p
  | Walk.err e, _ => Except.error e
  | Walk.seq a b, p => (run a p).bind (run b)

/-! ### The `AS OF SYSTEM TIME` node (`src/as_of_system_time.rs`) -/

/-- The `AsOfSystemTime<S, T>` wrapper node: owns the source select
query `S` and the system-time expression `T`. -/
structure AsOfSystemTime (S T : Type) where
  source : S
  system_time : T
  deriving Repr, DecidableEq

/-- The private constructor `AsOfSystemTime::new`. -/
def AsOfSystemTime.new {S T : Type} (source : S) (system_time : T) :
    AsOfSystemTime S T :=
  ⟨source, system_time⟩

/-- The blanket `AsOfSystemTimeDsl` extension method
`as_of_system_time`, implemented for every type `S` with no constraint:
it just wraps both values. -/
def as_of_system_time {S T : Type} (s : S) (system_time : T) :
    AsOfSystemTime S T :=
  AsOfSystemTime.new s system_time

/-- The `walk_ast` of `AsOfSystemTime`: walk the source, push the
literal clause keyword text, walk the system-time expression. -/
def AsOfSystemTime.walk_ast (q : AsOfSystemTime Walk Walk) : Walk :=
  Walk.seq q.source
    (Walk.seq (Walk.pushSql " AS OF SYSTEM TIME ") q.system_time)

/-! ### The `UPSERT` statement (`src/upsert.rs`) -/

/-- A table usable as an upsert target, modelled by its from-clause
fragment (the `T: QuerySource, T::FromClause: QueryFragment<Pg>` bound
in the Rust code). -/
structure QuerySource where
  from_clause : Walk
  deriving Repr, DecidableEq

/-- Stage one of the builder: `upsert_into` captures only the target. -/
structure IncompleteUpsertStatement (T : Type) where
  target : T
  deriving Repr, DecidableEq

/-- The free function `upsert_into`. -/
def upsert_into {T : Type} (target : T) : IncompleteUpsertStatement T :=
  ⟨target⟩

/-- The fully constructed upsert statement, owning the target table and
the record-set values fragment. -/
structure UpsertStatement (T U : Type) where
  target : T
  records : U
  deriving Repr, DecidableEq

/-- Stage two of the builder: `values` attaches the record set's values
fragment and yields the complete statement node. -/
def IncompleteUpsertStatement.values {T U : Type}
    (s : IncompleteUpsertStatement T) (records : U) : UpsertStatement T U :=
  ⟨s.target, records⟩

/-- The `walk_ast` of `UpsertStatement`: mark the walk uncacheable, push
the keyword, walk the target's from-clause, push a single separating
space, then delegate to the record-set fragment. -/
def UpsertStatement.walk_ast (st : UpsertStatement QuerySource Walk) : Walk :=
  Walk.seq Walk.markUncacheable
    (Walk.seq (Walk.pushSql "UPSERT INTO ")
      (Walk.seq st.target.from_clause
        (Walk.seq (Walk.pushSql " ") st.records)))

/-- The `QueryId` impl for `UpsertStatement`: `HAS_STATIC_QUERY_ID` is
`false` for every instantiation (the non-static query-identity marker). -/
def UpsertStatement.HAS_STATIC_QUERY_ID : Bool := false

/-! ### Diesel collaborator fragments, pinned by the repository's tests -/

/-- The test table `books` of `upsert.rs` / `as_of_system_time.rs`: its
from-clause emits the quoted table name, per the tests. -/
def books_table : QuerySource := ⟨Walk.pushSql "\"books\""⟩

/-- The inner query `books::table.select(books::dsl::id)` of the
`as_of_system_time.rs` tests, as the text those tests pin down. -/
def selectBooksId : Walk :=
  Walk.pushSql "SELECT \"books\".\"id\" FROM \"books\""

/-- The `no_arg_sql_function!` node `follower_read_timestamp`: emits its
call syntax with no arguments and no bound values. -/
def follower_read_timestamp : Walk :=
  Walk.pushSql "follower_read_timestamp()"

/-- The `sql_function!` node `with_min_timestamp(timestamp)`: emits its
call syntax around its single argument fragment. -/
def with_min_timestamp (timestamp : Walk) : Walk :=
  Walk.seq (Walk.pushSql "with_min_timestamp(")
    (Walk.seq timestamp (Walk.pushSql ")"))

/-- The `sql_function!` node `with_min_timestamp(timestamp,
nearest_only)` (SQL name `with_min_timestamp`): emits its call syntax
around its two argument fragments in declared order. -/
def with_min_timestamp_nearest_only (timestamp nearest_only : Walk) : Walk :=
  Walk.seq (Walk.pushSql "with_min_timestamp(")
    (Walk.seq timestamp
      (Walk.seq (Walk.pushSql ", ")
        (Walk.seq nearest_only (Walk.pushSql ")"))))

/-- The `sql_function!` node `with_max_staleness(interval)`. -/
def with_max_staleness (interval : Walk) : Walk :=
  Walk.seq (Walk.pushSql "with_max_staleness(")
    (Walk.seq interval (Walk.pushSql ")"))

/-- The `sql_function!` node `with_max_staleness(interval,
nearest_only)` (SQL name `with_max_staleness`). -/
def with_max_staleness_nearest_only (interval nearest_only : Walk) : Walk :=
  Walk.seq (Walk.pushSql "with_max_staleness(")
    (Walk.seq interval
      (Walk.seq (Walk.pushSql ", ")
        (Walk.seq nearest_only (Walk.pushSql ")"))))

/-- The recognized time-value function nodes over argument fragments
`a`, `b`, as a family the theorems can quantify over. -/
def timeFns (a b : Walk) : List Walk :=
  [follower_read_timestamp, with_min_timestamp a,
   with_min_timestamp_nearest_only a b, with_max_staleness a,
   with_max_staleness_nearest_only a b]

/-- Quote an identifier the way diesel's Pg backend does. -/
def quoteIdent (s : String) : String := "\"" ++ s ++ "\""

/-- The parenthesized, comma-separated column list emitted by a
non-empty insertable record set (one literal chunk), per the tests. -/
def columnListSql (cols : List String) : String :=
  "(" ++ String.intercalate ", " (cols.map quoteIdent) ++ ")"

/-- Interleave a list of fragments with a separator fragment. -/
def sepBy (sep : Walk) : List Walk → Walk
  | [] => Walk.skip
  | [w] => w
  | w :: ws => Walk.seq w (Walk.seq sep (sepBy sep ws))

/-- One parenthesized value tuple of a record: `(`, the row's values as
bind parameters separated by `, `, then `)`. -/
def rowTuple (row : List BindValue) : Walk :=
  Walk.seq (Walk.pushSql "(")
    (Walk.seq (sepBy (Walk.pushSql ", ") (row.map Walk.pushBind))
      (Walk.pushSql ")"))

/-- The values fragment produced by diesel for an insertable record set
over columns `cols` with rows `rows`, with the behaviour the
repository's tests `empty`, `single` and `many` pin down: an empty
record set emits nothing; otherwise the column list, ` VALUES `, and one
tuple per record, comma-separated. -/
def insertValues (cols : List String) (rows : List (List BindValue)) : Walk :=
  match rows with
  | [] => Walk.skip
  | _ :: _ =>
    Walk.seq (Walk.pushSql (columnListSql cols))
      (Walk.seq (Walk.pushSql " VALUES ")
        (sepBy (Walk.pushSql ", ") (rows.map rowTuple)))

/-- The columns of the `books` test table of `upsert.rs`, in declaration
order. -/
def booksColumns : List String := ["id", "title", "page_count"]

/-- The two-record, three-column record set of the `upsert.rs` test
`many`, in row-major, column-declaration order. -/
def manyRows : List (List BindValue) :=
  [[BindValue.bytes [0], BindValue.str "Guards! Guards!", BindValue.int 42],
   [BindValue.bytes [1, 1, 1, 1, 1, 1, 1, 1], BindValue.str "Shift",
    BindValue.int 9223372036854775807]]

/-! ### Helper lemmas about `run` -/

lemma run_seq (a b : Walk) (p : AstPass) :
    run (Walk.seq a b) p = (run a p).bind (run b) := rfl

lemma run_pushSql (s : String) (p : AstPass) :
    run (Walk.pushSql s) p = Except.ok (p.pushSql s) := rfl

lemma run_pushBind (v : BindValue) (p : AstPass) :
    run (Walk.pushBind v) p = Except.ok (p.pushBindParam v) := rfl

lemma placeholders_append (xs ys : List SqlChunk) :
    placeholders (xs ++ ys) = placeholders xs ++ placeholders ys := by
  simp [placeholders]

lemma run_seq_error_iff (a b : Walk) (p : AstPass) (e : String) :
    run (Walk.seq a b) p = Except.error e ↔
      run a p = Except.error e
      ∨ ∃ q, run a p = Except.ok q ∧ run b q = Except.error e := by
  cases h : run a p with
  | error e2 => simp [run_seq, h, Except.bind]
  | ok q => simp [run_seq, h, Except.bind]

lemma run_preserves_bindAligned (w : Walk) :
    ∀ p p' : AstPass, run w p = Except.ok p' → bindAligned p → bindAligned p' := by
  induction w with
  | pushSql s =>
    intro p p' h hb
    simp only [run, Except.ok.injEq] at h
    subst h
    simpa [bindAligned, AstPass.pushSql, placeholders_append, placeholders] using hb
  | pushBind v =>
    intro p p' h hb
    simp only [run, Except.ok.injEq] at h
    subst h
    unfold bindAligned at hb ⊢
    show placeholders (p.sql ++ [SqlChunk.placeholder (p.binds.length + 1)]) =
      List.range' 1 (p.binds ++ [v]).length
    rw [placeholders_append, hb]
    have hlen : (p.binds ++ [v]).length = p.binds.length + 1 := by simp
    rw [hlen, List.range'_1_concat]
    simp [placeholders, Nat.add_comm]
  | markUncacheable =>
    intro p p' h hb
    simp only [run, Except.ok.injEq] at h
    subst h
    simpa [bindAligned, AstPass.markUncacheable] using hb
  | skip =>
    intro p p' h hb
    simp only [run, Except.ok.injEq] at h
    subst h
    exact hb
  | err e =>
    intro p p' h hb
    simp [run] at h
  | seq a b iha ihb =>
    intro p p' h hb
    simp only [run] at h
    cases hr : run a p with
    | error e => rw [hr] at h; simp [Except.bind] at h
    | ok q =>
      rw [hr] at h
      simp only [Except.bind] at h
      exact ihb q p' h (iha p q hr hb)

lemma run_cacheable_mono (w : Walk) :
    ∀ p p' : AstPass, run w p = Except.ok p' → p.cacheable = false →
      p'.cacheable = false := by
  induction w with
  | pushSql s =>
    intro p p' h hc
    simp only [run, Except.ok.injEq] at h
    subst h; exact hc
  | pushBind v =>
    intro p p' h hc
    simp only [run, Except.ok.injEq] at h
    subst h; exact hc
  | markUncacheable =>
    intro p p' h _
    simp only [run, Except.ok.injEq] at h
    subst h; rfl
  | skip =>
    intro p p' h hc
    simp only [run, Except.ok.injEq] at h
    subst h; exact hc
  | err e =>
    intro p p' h _
    simp [run] at h
  | seq a b iha ihb =>
    intro p p' h hc
    simp only [run] at h
    cases hr : run a p with
    | error e => rw [hr] at h; simp [Except.bind] at h
    | ok q =>
      rw [hr] at h
      simp only [Except.bind] at h
      exact ihb q p' h (iha p q hr hc)

lemma run_extends (w : Walk) :
    ∀ p p' : AstPass, run w p = Except.ok p' →
      ∃ cs bs, p'.sql = p.sql ++ cs ∧ p'.binds = p.binds ++ bs := by
  induction w with
  | pushSql s =>
    intro p p' h
    simp only [run, Except.ok.injEq] at h
    subst h
    exact ⟨[SqlChunk.lit s], [], rfl, by simp [AstPass.pushSql]⟩
  | pushBind v =>
    intro p p' h
    simp only [run, Except.ok.injEq] at h
    subst h
    exact ⟨[SqlChunk.placeholder (p.binds.length + 1)], [v], rfl, rfl⟩
  | markUncacheable =>
    intro p p' h
    simp only [run, Except.ok.injEq] at h
    subst h
    exact ⟨[], [], by simp [AstPass.markUncacheable], by simp [AstPass.markUncacheable]⟩
  | skip =>
    intro p p' h
    simp only [run, Except.ok.injEq] at h
    subst h
    exact ⟨[], [], by simp, by simp⟩
  | err e =>
    intro p p' h
    simp [run] at h
  | seq a b iha ihb =>
    intro p p' h
    simp only [run] at h
    cases hr : run a p with
    | error e => rw [hr] at h; simp [Except.bind] at h
    | ok q =>
      rw [hr] at h
      simp only [Except.bind] at h
      obtain ⟨cs1, bs1, hs1, hb1⟩ := iha p q hr
      obtain ⟨cs2, bs2, hs2, hb2⟩ := ihb q p' h
      exact ⟨cs1 ++ cs2, bs1 ++ bs2, by rw [hs2, hs1, List.append_assoc],
        by rw [hb2, hb1, List.append_assoc]⟩

/-! ### Closed form of the record-set values fragment -/

/-- The chunks emitted inside one value tuple when the walk starts with
`off` binds already accumulated: `$off+1, $off+2, ...`, comma-separated. -/
def tupleInner (off : Nat) : List BindValue → List SqlChunk
  | [] => []
  | [_] => [SqlChunk.placeholder (off + 1)]
  | _ :: v :: vs =>
    SqlChunk.placeholder (off + 1) :: SqlChunk.lit ", " ::
      tupleInner (off + 1) (v :: vs)

/-- The chunks emitted by one parenthesized value tuple. -/
def tupleChunks (off : Nat) (row : List BindValue) : List SqlChunk :=
  SqlChunk.lit "(" :: (tupleInner off row ++ [SqlChunk.lit ")"])

/-- The chunks emitted by the comma-separated tuple list of a record
set, starting with `off` binds already accumulated. -/
def tuplesChunks (off : Nat) : List (List BindValue) → List SqlChunk
  | [] => []
  | [r] => tupleChunks off r
  | r :: r2 :: rs =>
    tupleChunks off r ++ SqlChunk.lit ", " ::
      tuplesChunks (off + r.length) (r2 :: rs)

lemma run_sepBy_pushBind (row : List BindValue) :
    ∀ p : AstPass,
      run (sepBy (Walk.pushSql ", ") (row.map Walk.pushBind)) p
        = Except.ok
            { p with
                sql := p.sql ++ tupleInner p.binds.length row
                binds := p.binds ++ row } := by
  induction row with
  | nil => intro p; simp [sepBy, run, tupleInner]
  | cons v vs ih =>
    intro p
    cases vs with
    | nil => simp [sepBy, run, tupleInner, AstPass.pushBindParam]
    | cons w ws =>
      show run (Walk.seq (Walk.pushBind v)
        (Walk.seq (Walk.pushSql ", ")
          (sepBy (Walk.pushSql ", ") ((w :: ws).map Walk.pushBind)))) p = _
      simp only [run, Except.bind]
      rw [ih]
      simp [AstPass.pushBindParam, AstPass.pushSql, tupleInner]

lemma run_rowTuple (row : List BindValue) (p : AstPass) :
    run (rowTuple row) p
      = Except.ok
          { p with
              sql := p.sql ++ tupleChunks p.binds.length row
              binds := p.binds ++ row } := by
  show run (Walk.seq (Walk.pushSql "(")
    (Walk.seq (sepBy (Walk.pushSql ", ") (row.map Walk.pushBind))
      (Walk.pushSql ")"))) p = _
  rw [run_seq, run_pushSql]
  simp only [Except.bind]
  rw [run_seq, run_sepBy_pushBind]
  simp only [Except.bind, run_pushSql]
  simp [AstPass.pushSql, tupleChunks]

lemma run_tuplesRows (rows : List (List BindValue)) :
    ∀ p : AstPass,
      run (sepBy (Walk.pushSql ", ") (rows.map rowTuple)) p
        = Except.ok
            { p with
                sql := p.sql ++ tuplesChunks p.binds.length rows
                binds := p.binds ++ rows.flatten } := by
  induction rows with
  | nil => intro p; simp [sepBy, run, tuplesChunks]
  | cons r rs ih =>
    intro p
    cases rs with
    | nil =>
      show run (rowTuple r) p = _
      rw [run_rowTuple]
      simp [tuplesChunks]
    | cons r2 rs2 =>
      show run (Walk.seq (rowTuple r)
        (Walk.seq (Walk.pushSql ", ")
          (sepBy (Walk.pushSql ", ") ((r2 :: rs2).map rowTuple)))) p = _
      rw [run_seq, run_rowTuple]
      simp only [Except.bind]
      rw [run_seq, run_pushSql]
      simp only [Except.bind]
      rw [ih]
      simp [AstPass.pushSql, tuplesChunks]

lemma run_insertValues (cols : List String) (r : List BindValue)
    (rs : List (List BindValue)) (p : AstPass) :
    run (insertValues cols (r :: rs)) p
      = Except.ok
          { p with
              sql := p.sql ++ (SqlChunk.lit (columnListSql cols) ::
                SqlChunk.lit " VALUES " :: tuplesChunks p.binds.length (r :: rs))
              binds := p.binds ++ (r :: rs).flatten } := by
  show run (Walk.seq (Walk.pushSql (columnListSql cols))
    (Walk.seq (Walk.pushSql " VALUES ")
      (sepBy (Walk.pushSql ", ") ((r :: rs).map rowTuple)))) p = _
  rw [run_seq, run_pushSql]
  simp only [Except.bind]
  rw [run_seq, run_pushSql]
  simp only [Except.bind]
  rw [run_tuplesRows]
  simp [AstPass.pushSql]

/-- How many times a given string occurs as a standalone literal chunk
in a chunk list.  Each value tuple contributes exactly one standalone
`(` chunk and one standalone `)` chunk. -/
def countLit (s : String) : List SqlChunk → Nat
  | [] => 0
  | SqlChunk.lit t :: cs => (if t = s then 1 else 0) + countLit s cs
  | SqlChunk.placeholder _ :: cs => countLit s cs

lemma countLit_append (s : String) (xs ys : List SqlChunk) :
    countLit s (xs ++ ys) = countLit s xs + countLit s ys := by
  induction xs with
  | nil => simp [countLit]
  | cons c cs ih =>
    cases c with
    | lit t => simp [countLit, ih]; omega
    | placeholder n => simp [countLit, ih]

lemma countLit_tupleInner (s : String) (hs : s ≠ ", ") (off : Nat)
    (row : List BindValue) : countLit s (tupleInner off row) = 0 := by
  induction row generalizing off with
  | nil => simp [tupleInner, countLit]
  | cons v vs ih =>
    cases vs with
    | nil => simp [tupleInner, countLit]
    | cons w ws =>
      have hne : ", " ≠ s := fun h => hs h.symm
      simp [tupleInner, countLit, hne, ih]

lemma countLit_tupleChunks_open (off : Nat) (row : List BindValue) :
    countLit "(" (tupleChunks off row) = 1 := by
  simp [tupleChunks, countLit, countLit_append,
    countLit_tupleInner "(" (by decide) off row]

lemma countLit_tupleChunks_close (off : Nat) (row : List BindValue) :
    countLit ")" (tupleChunks off row) = 1 := by
  simp [tupleChunks, countLit, countLit_append,
    countLit_tupleInner ")" (by decide) off row]

lemma countLit_tuplesChunks_open (rows : List (List BindValue)) :
    ∀ off, countLit "(" (tuplesChunks off rows) = rows.length := by
  induction rows with
  | nil => intro off; simp [tuplesChunks, countLit]
  | cons r rs ih =>
    intro off
    cases rs with
    | nil => simp [tuplesChunks, countLit_tupleChunks_open]
    | cons r2 rs2 =>
      simp [tuplesChunks, countLit_append, countLit,
        countLit_tupleChunks_open, ih, countLit_tupleInner "(" (by decide)]
      omega

lemma countLit_tuplesChunks_close (rows : List (List BindValue)) :
    ∀ off, countLit ")" (tuplesChunks off rows) = rows.length := by
  induction rows with
  | nil => intro off; simp [tuplesChunks, countLit]
  | cons r rs ih =>
    intro off
    cases rs with
    | nil => simp [tuplesChunks, countLit_tupleChunks_close]
    | cons r2 rs2 =>
      simp [tuplesChunks, countLit_append, countLit,
        countLit_tupleChunks_close, ih, countLit_tupleInner ")" (by decide)]
      omega

lemma columnListSql_ne_open (cols : List String) : columnListSql cols ≠ "(" := by
  intro h
  have hlen := congrArg String.length h
  simp only [columnListSql, String.length_append] at hlen
  have h1 : "(".length = 1 := rfl
  have h2 : ")".length = 1 := rfl
  rw [h1, h2] at hlen
  omega

lemma columnListSql_ne_close (cols : List String) : columnListSql cols ≠ ")" := by
  intro h
  have hlen := congrArg String.length h
  simp only [columnListSql, String.length_append] at hlen
  have h1 : "(".length = 1 := rfl
  have h2 : ")".length = 1 := rfl
  rw [h1, h2] at hlen
  omega

lemma flatten_length_const {c : Nat} (rows : List (List BindValue))
    (h : ∀ r ∈ rows, r.length = c) :
    rows.flatten.length = rows.length * c := by
  induction rows with
  | nil => simp
  | cons r rs ih =>
    have hr : r.length = c := h r (by simp)
    have hrest : ∀ r' ∈ rs, r'.length = c := fun r' hm => h r' (by simp [hm])
    simp [List.flatten, hr, ih hrest, Nat.succ_mul, Nat.add_comm]

/-! ### Claim theorems -/

/-- C1: for every upsert statement over any record-set fragment, and for
every time-travel wrapper over any source query and any of the
recognized time-value function nodes, the positional placeholders in the
emitted SQL text are exactly `$1 .. $n` in textual order, where `n` is
the length of the accumulated bound-value sequence — so the i-th
placeholder corresponds to the i-th bound value. -/
theorem placeholder_count_matches_binds
    (target : QuerySource) (records srcQ a b t : Walk) (p' : AstPass) :
    (run (UpsertStatement.walk_ast ((upsert_into target).values records))
        AstPass.empty = Except.ok p' → bindAligned p')
    ∧ (t ∈ timeFns a b →
        run (AsOfSystemTime.walk_ast (as_of_system_time srcQ t))
          AstPass.empty = Except.ok p' → bindAligned p') := by
  have he : bindAligned AstPass.empty := by decide
  exact ⟨fun h => run_preserves_bindAligned _ _ _ h he,
    fun _ h => run_preserves_bindAligned _ _ _ h he⟩

theorem placeholder_count_matches_binds_witness :
    bindAligned ⟨[SqlChunk.lit "UPSERT INTO ", SqlChunk.lit "\"books\"",
      SqlChunk.lit " ", SqlChunk.placeholder 1], [BindValue.int 42], false⟩
    ∧ bindAligned ⟨[SqlChunk.lit "SELECT \"books\".\"id\" FROM \"books\"",
      SqlChunk.lit " AS OF SYSTEM TIME ",
      SqlChunk.lit "follower_read_timestamp()"], [], true⟩ :=
  ⟨(placeholder_count_matches_binds books_table
      (Walk.pushBind (BindValue.int 42)) Walk.skip Walk.skip Walk.skip
      follower_read_timestamp _).1 rfl,
   (placeholder_count_matches_binds books_table Walk.skip selectBooksId
      Walk.skip Walk.skip follower_read_timestamp _).2 (by decide) rfl⟩

/-- C2: the upsert statement's emit always marks the walk not cacheable,
then writes the upsert keyword, then the target table reference, then
delegates to the record-set fragment, in that order; the node's
query-identity marker `HAS_STATIC_QUERY_ID` is `false`. -/
theorem upsert_walk_order
    (target : QuerySource) (records : Walk) (p p' : AstPass) :
    run (UpsertStatement.walk_ast ((upsert_into target).values records)) p
      = (run target.from_clause
            ((p.markUncacheable).pushSql "UPSERT INTO ")).bind
          (fun q => run records (q.pushSql " "))
    ∧ (run (UpsertStatement.walk_ast ((upsert_into target).values records)) p
        = Except.ok p' → p'.cacheable = false)
    ∧ UpsertStatement.HAS_STATIC_QUERY_ID = false := by
  refine ⟨?_, ?_, rfl⟩
  · cases hfc : run target.from_clause
      ((p.markUncacheable).pushSql "UPSERT INTO ") with
    | error e =>
      show run (Walk.seq Walk.markUncacheable
        (Walk.seq (Walk.pushSql "UPSERT INTO ")
          (Walk.seq target.from_clause
            (Walk.seq (Walk.pushSql " ") records)))) p = _
      simp only [run, Except.bind]
      rw [hfc]
    | ok q =>
      show run (Walk.seq Walk.markUncacheable
        (Walk.seq (Walk.pushSql "UPSERT INTO ")
          (Walk.seq target.from_clause
            (Walk.seq (Walk.pushSql " ") records)))) p = _
      simp only [run, Except.bind]
      rw [hfc]
  · intro h
    exact run_cacheable_mono
      (Walk.seq (Walk.pushSql "UPSERT INTO ")
        (Walk.seq target.from_clause (Walk.seq (Walk.pushSql " ") records)))
      p.markUncacheable p' h rfl

theorem upsert_walk_order_witness :
    AstPass.cacheable ⟨[SqlChunk.lit "UPSERT INTO ", SqlChunk.lit "\"books\"",
      SqlChunk.lit " "], [], false⟩ = false :=
  (upsert_walk_order books_table Walk.skip AstPass.empty _).2.1 rfl

/-- C3: an upsert statement built from an empty record set still emits a
statement made of only the upsert keyword and the table reference — the
column list and value clause are omitted entirely, nothing follows the
table reference but the separator — and the bound-value sequence is
empty. -/
theorem upsert_empty_record_set (cols : List String) :
    run (UpsertStatement.walk_ast ((upsert_into books_table).values
        (insertValues cols []))) AstPass.empty
      = Except.ok ⟨[SqlChunk.lit "UPSERT INTO ", SqlChunk.lit "\"books\"",
          SqlChunk.lit " "], [], false⟩
    ∧ AstPass.sqlText ⟨[SqlChunk.lit "UPSERT INTO ",
        SqlChunk.lit "\"books\"", SqlChunk.lit " "], [], false⟩
      = "UPSERT INTO " ++ "\"books\"" ++ " " :=
  ⟨rfl, by decide⟩

/-- C4: the time-travel wrapper's emit walks the source verbatim, appends
the literal clause keyword text ` AS OF SYSTEM TIME `, then walks the
time-value expression; wrapping the one-column select over `books` with
the zero-argument function yields exactly the pinned text with an empty
bind list. -/
theorem as_of_system_time_emission :
    (∀ (srcQ t : Walk) (p : AstPass),
      run (AsOfSystemTime.walk_ast (as_of_system_time srcQ t)) p
        = (run srcQ p).bind
            (fun q => run t (q.pushSql " AS OF SYSTEM TIME ")))
    ∧ (run (AsOfSystemTime.walk_ast (as_of_system_time selectBooksId
          follower_read_timestamp)) AstPass.empty).map AstPass.sqlText
        = Except.ok
            "SELECT \"books\".\"id\" FROM \"books\" AS OF SYSTEM TIME follower_read_timestamp()"
    ∧ (run (AsOfSystemTime.walk_ast (as_of_system_time selectBooksId
          follower_read_timestamp)) AstPass.empty).map AstPass.binds
        = Except.ok [] := by
  refine ⟨fun srcQ t p => ?_, rfl, rfl⟩
  cases hs : run srcQ p with
  | error e =>
    show run (Walk.seq srcQ (Walk.seq
      (Walk.pushSql " AS OF SYSTEM TIME ") t)) p = _
    simp only [run, Except.bind]
    rw [hs]
  | ok q =>
    show run (Walk.seq srcQ (Walk.seq
      (Walk.pushSql " AS OF SYSTEM TIME ") t)) p = _
    simp only [run, Except.bind]
    rw [hs]

/-- C5: for every non-empty record set passed to the upsert statement
over the `books` target, the emitted text is the keyword, table
reference, column list and ` VALUES ` followed by exactly one
parenthesized comma-separated value tuple per input record; when every
record has one value per target column the bound values are the records
in row-major, column-declaration order and the placeholders are
`$1 .. $(records × columns)`; concretely, two records over the three
`books` columns yield two three-element tuples and six bound values. -/
theorem upsert_nonempty_tuples :
    (∀ (cols : List String) (rows : List (List BindValue)) (p' : AstPass),
      rows ≠ [] → (∀ r ∈ rows, r.length = cols.length) →
      run (UpsertStatement.walk_ast ((upsert_into books_table).values
          (insertValues cols rows))) AstPass.empty = Except.ok p' →
      p'.sql = SqlChunk.lit "UPSERT INTO " :: SqlChunk.lit "\"books\"" ::
          SqlChunk.lit " " :: SqlChunk.lit (columnListSql cols) ::
          SqlChunk.lit " VALUES " :: tuplesChunks 0 rows
        ∧ countLit "(" p'.sql = rows.length
        ∧ countLit ")" p'.sql = rows.length
        ∧ p'.binds = rows.flatten
        ∧ placeholders p'.sql = List.range' 1 (rows.length * cols.length))
    ∧ (run (UpsertStatement.walk_ast ((upsert_into books_table).values
          (insertValues booksColumns manyRows))) AstPass.empty).map
        AstPass.sqlText
      = Except.ok
          "UPSERT INTO \"books\" (\"id\", \"title\", \"page_count\") VALUES ($1, $2, $3), ($4, $5, $6)"
    ∧ (run (UpsertStatement.walk_ast ((upsert_into books_table).values
          (insertValues booksColumns manyRows))) AstPass.empty).map
        AstPass.binds
      = Except.ok [BindValue.bytes [0], BindValue.str "Guards! Guards!",
          BindValue.int 42, BindValue.bytes [1, 1, 1, 1, 1, 1, 1, 1],
          BindValue.str "Shift", BindValue.int 9223372036854775807] := by
  refine ⟨?_, rfl, rfl⟩
  intro cols rows p' hne harity h
  obtain ⟨r, rs, rfl⟩ : ∃ r rs, rows = r :: rs := by
    cases rows with
    | nil => exact absurd rfl hne
    | cons r rs => exact ⟨r, rs, rfl⟩
  have h' : run (insertValues cols (r :: rs))
      ⟨[SqlChunk.lit "UPSERT INTO ", SqlChunk.lit "\"books\"",
        SqlChunk.lit " "], [], false⟩ = Except.ok p' := h
  rw [run_insertValues] at h'
  have hp := (Except.ok.injEq _ _).mp h'
  subst hp
  have hba := run_preserves_bindAligned _ _ _ h (by decide)
  refine ⟨rfl, ?_, ?_, by simp, ?_⟩
  · show countLit "(" (SqlChunk.lit "UPSERT INTO " ::
      SqlChunk.lit "\"books\"" :: SqlChunk.lit " " ::
      SqlChunk.lit (columnListSql cols) :: SqlChunk.lit " VALUES " ::
      tuplesChunks 0 (r :: rs)) = (r :: rs).length
    simp only [countLit]
    rw [if_neg (by decide), if_neg (by decide), if_neg (by decide),
      if_neg (columnListSql_ne_open cols), if_neg (by decide),
      countLit_tuplesChunks_open]
    omega
  · show countLit ")" (SqlChunk.lit "UPSERT INTO " ::
      SqlChunk.lit "\"books\"" :: SqlChunk.lit " " ::
      SqlChunk.lit (columnListSql cols) :: SqlChunk.lit " VALUES " ::
      tuplesChunks 0 (r :: rs)) = (r :: rs).length
    simp only [countLit]
    rw [if_neg (by decide), if_neg (by decide), if_neg (by decide),
      if_neg (columnListSql_ne_close cols), if_neg (by decide),
      countLit_tuplesChunks_close]
    omega
  · unfold bindAligned at hba
    rw [hba]
    have hb : ([] : List BindValue) ++ (r :: rs).flatten
        = (r :: rs).flatten := by simp
    have hlen : (([] : List BindValue) ++ (r :: rs).flatten).length
        = (r :: rs).length * cols.length := by
      rw [hb]; exact flatten_length_const (r :: rs) harity
    rw [show AstPass.binds
        { sql := [SqlChunk.lit "UPSERT INTO ", SqlChunk.lit "\"books\"",
            SqlChunk.lit " "] ++ (SqlChunk.lit (columnListSql cols) ::
            SqlChunk.lit " VALUES " :: tuplesChunks 0 (r :: rs)),
          binds := [] ++ (r :: rs).flatten, cacheable := false }
        = [] ++ (r :: rs).flatten from rfl, hlen]

theorem upsert_nonempty_tuples_witness :
    AstPass.binds ⟨[SqlChunk.lit "UPSERT INTO ", SqlChunk.lit "\"books\"",
      SqlChunk.lit " ", SqlChunk.lit "(\"id\")", SqlChunk.lit " VALUES ",
      SqlChunk.lit "(", SqlChunk.placeholder 1, SqlChunk.lit ")"],
      [BindValue.int 1], false⟩ = [BindValue.int 1] :=
  (upsert_nonempty_tuples.1 ["id"] [[BindValue.int 1]] _ (by decide)
    (by decide) rfl).2.2.2.1

/-- C6: the time-travel wrapper is shape-transparent: whatever the inner
query emits (its output column list included) appears verbatim and
unchanged as the leading part of the wrapper's emission, the wrapper
adding only the clause keyword and the time expression after it; at the
node level the wrapper stores the inner query unchanged. -/
theorem aost_shape_transparent (srcQ t : Walk) (p p1 p' : AstPass) :
    (run srcQ p = Except.ok p1 →
      run (AsOfSystemTime.walk_ast (as_of_system_time srcQ t)) p
        = Except.ok p' →
      ∃ cs bs, p'.sql = p1.sql ++ (SqlChunk.lit " AS OF SYSTEM TIME " :: cs)
        ∧ p'.binds = p1.binds ++ bs)
    ∧ (as_of_system_time srcQ t).source = srcQ := by
  refine ⟨?_, rfl⟩
  intro hs h
  have h2 : (run srcQ p).bind
      (run (Walk.seq (Walk.pushSql " AS OF SYSTEM TIME ") t))
      = Except.ok p' := h
  rw [hs] at h2
  simp only [Except.bind] at h2
  have h3 : run t (p1.pushSql " AS OF SYSTEM TIME ") = Except.ok p' := h2
  obtain ⟨cs, bs, hcs, hbs⟩ := run_extends t _ _ h3
  refine ⟨cs, bs, ?_, hbs⟩
  rw [hcs]
  simp [AstPass.pushSql]

theorem aost_shape_transparent_witness :
    ∃ cs bs,
      AstPass.sql ⟨[SqlChunk.lit "SELECT \"books\".\"id\" FROM \"books\"",
        SqlChunk.lit " AS OF SYSTEM TIME ",
        SqlChunk.lit "follower_read_timestamp()"], [], true⟩
        = [SqlChunk.lit "SELECT \"books\".\"id\" FROM \"books\""] ++
            (SqlChunk.lit " AS OF SYSTEM TIME " :: cs)
      ∧ AstPass.binds ⟨[SqlChunk.lit "SELECT \"books\".\"id\" FROM \"books\"",
          SqlChunk.lit " AS OF SYSTEM TIME ",
          SqlChunk.lit "follower_read_timestamp()"], [], true⟩
        = [] ++ bs :=
  (aost_shape_transparent selectBooksId follower_read_timestamp
    AstPass.empty ⟨[SqlChunk.lit "SELECT \"books\".\"id\" FROM \"books\""],
      [], true⟩ _).1 rfl rfl

/-- C7: the extension trait is a blanket implementation over every type
with no constraint at all: `as_of_system_time` is total for all `S` and
`T`, and its single operation just returns the wrapper node owning the
original value together with the time value — no validation happens at
attachment, constraints apply only to the walk of the resulting node. -/
theorem extension_trait_blanket (S T : Type) (s : S) (t : T) :
    as_of_system_time s t = AsOfSystemTime.new s t
    ∧ (as_of_system_time s t).source = s
    ∧ (as_of_system_time s t).system_time = t :=
  ⟨rfl, rfl, rfl⟩

/-- C8: each recognized time-value function node emits its call syntax
and forwards its arguments as bound values in declared order: the
zero-argument function contributes no bound values, the one-argument
functions contribute exactly one, and the two-argument functions with
the boolean modifier flag contribute both, in declared order. -/
theorem time_fn_call_syntax_and_binds (p : AstPass) (v w : BindValue) :
    run follower_read_timestamp p
      = Except.ok { p with
          sql := p.sql ++ [SqlChunk.lit "follower_read_timestamp()"] }
    ∧ run (with_min_timestamp (Walk.pushBind v)) p
      = Except.ok { p with
          sql := p.sql ++ [SqlChunk.lit "with_min_timestamp(",
            SqlChunk.placeholder (p.binds.length + 1), SqlChunk.lit ")"]
          binds := p.binds ++ [v] }
    ∧ run (with_min_timestamp_nearest_only (Walk.pushBind v)
        (Walk.pushBind w)) p
      = Except.ok { p with
          sql := p.sql ++ [SqlChunk.lit "with_min_timestamp(",
            SqlChunk.placeholder (p.binds.length + 1), SqlChunk.lit ", ",
            SqlChunk.placeholder (p.binds.length + 2), SqlChunk.lit ")"]
          binds := p.binds ++ [v, w] }
    ∧ run (with_max_staleness (Walk.pushBind v)) p
      = Except.ok { p with
          sql := p.sql ++ [SqlChunk.lit "with_max_staleness(",
            SqlChunk.placeholder (p.binds.length + 1), SqlChunk.lit ")"]
          binds := p.binds ++ [v] }
    ∧ run (with_max_staleness_nearest_only (Walk.pushBind v)
        (Walk.pushBind w)) p
      = Except.ok { p with
          sql := p.sql ++ [SqlChunk.lit "with_max_staleness(",
            SqlChunk.placeholder (p.binds.length + 1), SqlChunk.lit ", ",
            SqlChunk.placeholder (p.binds.length + 2), SqlChunk.lit ")"]
          binds := p.binds ++ [v, w] } := by
  refine ⟨rfl, ?_, ?_, ?_, ?_⟩ <;>
    simp [with_min_timestamp, with_min_timestamp_nearest_only,
      with_max_staleness, with_max_staleness_nearest_only, run,
      Except.bind, AstPass.pushSql, AstPass.pushBindParam]

/-- C9: for well-typed compositions the two nodes define no recoverable
errors of their own: each emit succeeds exactly when all child emissions
succeed, and it fails only by propagating a child's failure unchanged to
the caller, aborting the whole walk. -/
theorem error_propagation (srcQ t : Walk) (target : QuerySource)
    (records : Walk) (p : AstPass) (e : String) :
    (run (AsOfSystemTime.walk_ast (as_of_system_time srcQ t)) p
        = Except.error e
      ↔ run srcQ p = Except.error e
        ∨ ∃ p1, run srcQ p = Except.ok p1
            ∧ run t (p1.pushSql " AS OF SYSTEM TIME ") = Except.error e)
    ∧ (run (UpsertStatement.walk_ast ((upsert_into target).values records)) p
          = Except.error e
      ↔ run target.from_clause ((p.markUncacheable).pushSql "UPSERT INTO ")
            = Except.error e
        ∨ ∃ p1, run target.from_clause
              ((p.markUncacheable).pushSql "UPSERT INTO ") = Except.ok p1
            ∧ run records (p1.pushSql " ") = Except.error e)
    ∧ (∀ p1 p2, run srcQ p = Except.ok p1 →
        run t (p1.pushSql " AS OF SYSTEM TIME ") = Except.ok p2 →
        run (AsOfSystemTime.walk_ast (as_of_system_time srcQ t)) p
          = Except.ok p2)
    ∧ (∀ p1 p2, run target.from_clause
          ((p.markUncacheable).pushSql "UPSERT INTO ") = Except.ok p1 →
        run records (p1.pushSql " ") = Except.ok p2 →
        run (UpsertStatement.walk_ast ((upsert_into target).values records)) p
          = Except.ok p2) := by
  refine ⟨?_, ?_, ?_, ?_⟩
  · exact run_seq_error_iff srcQ
      (Walk.seq (Walk.pushSql " AS OF SYSTEM TIME ") t) p e
  · exact run_seq_error_iff target.from_clause
      (Walk.seq (Walk.pushSql " ") records)
      ((p.markUncacheable).pushSql "UPSERT INTO ") e
  · intro p1 p2 h1 h2
    have : (run srcQ p).bind
        (run (Walk.seq (Walk.pushSql " AS OF SYSTEM TIME ") t))
        = Except.ok p2 := by
      rw [h1]; simp only [Except.bind]; exact h2
    exact this
  · intro p1 p2 h1 h2
    have : (run target.from_clause
        ((p.markUncacheable).pushSql "UPSERT INTO ")).bind
        (run (Walk.seq (Walk.pushSql " ") records)) = Except.ok p2 := by
      rw [h1]; simp only [Except.bind]; exact h2
    exact this

theorem error_propagation_witness :
    run (AsOfSystemTime.walk_ast (as_of_system_time (Walk.err "boom")
      follower_read_timestamp)) AstPass.empty = Except.error "boom" :=
  ((error_propagation (Walk.err "boom") follower_read_timestamp books_table
    Walk.skip AstPass.empty "boom").1).mpr (Or.inl rfl)

/-- C10: the upsert emit writes exactly one separating space after the
target table reference before delegating to the record-set fragment, so
for an empty record set the emitted text is the keyword plus table
reference followed by a trailing space. -/
theorem upsert_separating_space (target : QuerySource) (records : Walk)
    (p p1 : AstPass) :
    (run target.from_clause ((p.markUncacheable).pushSql "UPSERT INTO ")
        = Except.ok p1 →
      run (UpsertStatement.walk_ast ((upsert_into target).values records)) p
        = run records (p1.pushSql " "))
    ∧ run (UpsertStatement.walk_ast ((upsert_into books_table).values
          (insertValues booksColumns []))) AstPass.empty
        = Except.ok ⟨[SqlChunk.lit "UPSERT INTO ", SqlChunk.lit "\"books\"",
            SqlChunk.lit " "], [], false⟩
    ∧ AstPass.sqlText ⟨[SqlChunk.lit "UPSERT INTO ",
        SqlChunk.lit "\"books\"", SqlChunk.lit " "], [], false⟩
      = "UPSERT INTO \"books\" " := by
  refine ⟨?_, rfl, by decide⟩
  intro h
  have h2 : (run target.from_clause
      ((p.markUncacheable).pushSql "UPSERT INTO ")).bind
      (run (Walk.seq (Walk.pushSql " ") records))
      = run records (p1.pushSql " ") := by
    rw [h]; simp only [Except.bind]; rfl
  exact h2

theorem upsert_separating_space_witness :
    run (UpsertStatement.walk_ast ((upsert_into books_table).values
        Walk.skip)) AstPass.empty
      = run Walk.skip (AstPass.pushSql ⟨[SqlChunk.lit "UPSERT INTO ",
          SqlChunk.lit "\"books\""], [], false⟩ " ") :=
  (upsert_separating_space books_table Walk.skip AstPass.empty
    ⟨[SqlChunk.lit "UPSERT INTO ", SqlChunk.lit "\"books\""], [], false⟩).1 rfl

end DieselCockroach
